import Mathlib

/-!
Verification of the CollabBoard relay (`server.mjs`) and the client-side
store/debounce logic, shallowly embedded in Lean.

The relay keeps a module-level `rooms : Map<boardId, Room>` with
`Room = { canvasJSON: string|null, users: Map<socketId, UserInfo> }` and a
per-connection variable `myBoardId`.  JavaScript `Map`s preserve insertion
order, so they are embedded as association lists together with faithful
`get` / `set` / `delete` operations.  Socket.io channel membership
(`socket.join` / `socket.leave` / automatic removal on disconnect) is kept in
lockstep with the keys of `room.users` by the server code, so the audience of
`io.to(boardId)` is taken to be the keys of `room.users`, and the audience of
`socket.to(boardId)` is the same minus the sender.
-/

namespace CollabBoard

/-- JS `Map.get`: the value at the binding of `k`, if any. -/
def mapGet {K V : Type} [DecidableEq K] : List (K × V) → K → Option V
  | [], _ => none
  | (k', v) :: t, k => if k' = k then some v else mapGet t k

/-- JS `Map.set`: overwrite the binding of `k` in place (keeping its
insertion position), else append a new binding at the end. -/
def mapSet {K V : Type} [DecidableEq K] : List (K × V) → K → V → List (K × V)
  | [], k, v => [(k, v)]
  | (k', v') :: t, k, v => if k' = k then (k, v) :: t else (k', v') :: mapSet t k v

/-- JS `Map.delete`: remove the binding of `k` (`Map` keys are unique). -/
def mapDelete {K V : Type} [DecidableEq K] (m : List (K × V)) (k : K) : List (K × V) :=
  m.filter (fun p => p.1 ≠ k)

/-- JS `Map.has`. -/
def mapHas {K V : Type} [DecidableEq K] (m : List (K × V)) (k : K) : Bool :=
  (mapGet m k).isSome

/-- The identity payload stored per member: `{ userId, userName, color }`. -/
structure UserInfo where
  userId : String
  userName : String
  color : String
deriving DecidableEq

/-- A `rooms` entry: `{ canvasJSON: string|null, users: Map<socketId, UserInfo> }`. -/
structure Room where
  canvasJSON : Option String
  users : List (String × UserInfo)
deriving DecidableEq

/-- The room freshly created by `getRoom`. -/
def emptyRoom : Room := { canvasJSON := none, users := [] }

/-- Relay state: the `rooms` registry plus each connection's `myBoardId`. -/
structure ServerState where
  rooms : List (String × Room)
  conns : List (String × Option String)
deriving DecidableEq

/-- State of a freshly started relay: no rooms, no connections. -/
def initState : ServerState := { rooms := [], conns := [] }

/-- Events the relay emits to clients. -/
inductive SEvent where
  | roomState (canvasJSON : Option String) (users : List UserInfo)
  | usersUpdate (users : List UserInfo)
  | canvasSyncOut (canvasJSON : String)
  | cursorMoveOut (userId : String) (x : Int) (y : Int)
  | userLeft (userId : String)
  | ack
deriving DecidableEq

/-- One outbound emission: the event and the socket ids that receive it. -/
structure Emit where
  targets : List String
  event : SEvent
deriving DecidableEq

/-- Inbound events processed by the relay. -/
inductive CEvent where
  | connect (sid : String)
  | joinRoom (sid : String) (boardId : String) (u : UserInfo)
  | canvasSync (sid : String) (boardId : String) (canvasJSON : String)
  | cursorMove (sid : String) (boardId : String) (userId : String) (x : Int) (y : Int)
  | ping (sid : String)
  | disconnect (sid : String)
deriving DecidableEq

/-- `getRoom(boardId)`: create-on-demand lookup.  Returns the room together
with the (possibly extended) registry. -/
def getRoom (rooms : List (String × Room)) (boardId : String) :
    Room × List (String × Room) :=
  match mapGet rooms boardId with
  | some r => (r, rooms)
  | none => (emptyRoom, mapSet rooms boardId emptyRoom)

/-- `broadcastUsers(boardId)`: emit `users-update` with the member identity
list to everyone in the room; nothing if the room does not exist. -/
def broadcastUsers (rooms : List (String × Room)) (boardId : String) : List Emit :=
  match mapGet rooms boardId with
  | some room =>
      [{ targets := room.users.map Prod.fst,
         event := SEvent.usersUpdate (room.users.map Prod.snd) }]
  | none => []

/-- `cleanEmptyRoom(boardId)`: delete the room if it exists and has no users. -/
def cleanEmptyRoom (rooms : List (String × Room)) (boardId : String) :
    List (String × Room) :=
  match mapGet rooms boardId with
  | some room => if room.users.length = 0 then mapDelete rooms boardId else rooms
  | none => rooms

/-- The per-connection `myBoardId` variable (`null` when absent). -/
def myBoardOf (s : ServerState) (sid : String) : Option String :=
  match mapGet s.conns sid with
  | some mb => mb
  | none => none

/-- The switch block of the `join-room` handler: leave the previous room
(delete self, `broadcastUsers`, `cleanEmptyRoom`). -/
def leavePrev (rooms : List (String × Room)) (sid : String) (prev : String) :
    List (String × Room) × List Emit :=
  match mapGet rooms prev with
  | some prevRoom =>
      let prevRoom' : Room := { prevRoom with users := mapDelete prevRoom.users sid }
      let rooms' := mapSet rooms prev prevRoom'
      (cleanEmptyRoom rooms' prev, broadcastUsers rooms' prev)
  | none => (rooms, [])

/-- The guard at the top of the `join-room` handler: leave the previous room
when already joined to a different one. -/
def joinPrevPart (s : ServerState) (sid : String) (boardId : String) :
    List (String × Room) × List Emit :=
  match myBoardOf s sid with
  | some prev => if prev ≠ boardId then leavePrev s.rooms sid prev else (s.rooms, [])
  | none => (s.rooms, [])

/-- The `join-room` handler. -/
def handleJoin (s : ServerState) (sid : String) (boardId : String) (u : UserInfo) :
    ServerState × List Emit :=
  let p := joinPrevPart s sid boardId
  let conns' := mapSet s.conns sid (some boardId)
  let q := getRoom p.1 boardId
  let room' : Room := { q.1 with users := mapSet q.1.users sid u }
  let rooms3 := mapSet q.2 boardId room'
  let otherUsers := (room'.users.filter (fun e => e.1 ≠ sid)).map Prod.snd
  let stateEmit : Emit :=
    { targets := [sid], event := SEvent.roomState room'.canvasJSON otherUsers }
  ({ rooms := rooms3, conns := conns' },
   p.2 ++ [stateEmit] ++ broadcastUsers rooms3 boardId)

/-- The `canvas-sync` handler. -/
def handleCanvasSync (s : ServerState) (sid : String) (boardId : String)
    (json : String) : ServerState × List Emit :=
  let q := getRoom s.rooms boardId
  let room' : Room := { q.1 with canvasJSON := some json }
  let rooms2 := mapSet q.2 boardId room'
  let targets := (room'.users.map Prod.fst).filter (fun m => m ≠ sid)
  ({ rooms := rooms2, conns := s.conns },
   [{ targets := targets, event := SEvent.canvasSyncOut json }])

/-- The `cursor-move` handler: stateless forward to the rest of the room. -/
def handleCursorMove (s : ServerState) (sid : String) (boardId : String)
    (userId : String) (x : Int) (y : Int) : ServerState × List Emit :=
  let targets :=
    match mapGet s.rooms boardId with
    | some room => (room.users.map Prod.fst).filter (fun m => m ≠ sid)
    | none => []
  (s, [{ targets := targets, event := SEvent.cursorMoveOut userId x y }])

/-- The `disconnect` handler. -/
def handleDisconnect (s : ServerState) (sid : String) : ServerState × List Emit :=
  match myBoardOf s sid with
  | none => ({ s with conns := mapDelete s.conns sid }, [])
  | some b =>
    match mapGet s.rooms b with
    | none => ({ s with conns := mapDelete s.conns sid }, [])
    | some room =>
      let user := mapGet room.users sid
      let room' : Room := { room with users := mapDelete room.users sid }
      let rooms1 := mapSet s.rooms b room'
      let emits :=
        match user with
        | some u =>
            { targets := room'.users.map Prod.fst,
              event := SEvent.userLeft u.userId } :: broadcastUsers rooms1 b
        | none => []
      ({ rooms := cleanEmptyRoom rooms1 b, conns := mapDelete s.conns sid }, emits)

/-- One relay transition: process an inbound event, giving the new state and
the emissions it produced. -/
def step (s : ServerState) (e : CEvent) : ServerState × List Emit :=
  match e with
  | .connect sid => ({ s with conns := mapSet s.conns sid none }, [])
  | .joinRoom sid b u => handleJoin s sid b u
  | .canvasSync sid b j => handleCanvasSync s sid b j
  | .cursorMove sid b uid x y => handleCursorMove s sid b uid x y
  | .ping sid => (s, [{ targets := [sid], event := SEvent.ack }])
  | .disconnect sid => handleDisconnect s sid

/-- Process a sequence of inbound events, keeping only the final state. -/
def run (s : ServerState) (es : List CEvent) : ServerState :=
  es.foldl (fun s e => (step s e).1) s

/-- The members map of board `b` (empty when the room does not exist). -/
def roomUsers (s : ServerState) (b : String) : List (String × UserInfo) :=
  match mapGet s.rooms b with
  | some r => r.users
  | none => []

/-- The socket ids of the members of board `b`. -/
def roomUsersIds (s : ServerState) (b : String) : List String :=
  (roomUsers s b).map Prod.fst

/-- The stored snapshot of board `b` (`null` when the room does not exist). -/
def roomSnapshot (s : ServerState) (b : String) : Option String :=
  match mapGet s.rooms b with
  | some r => r.canvasJSON
  | none => none

/-- The `canvasJSON` carried by the first `room-state` event of an emission
list, if any. -/
def firstRoomState : List Emit → Option (Option String)
  | [] => none
  | e :: es =>
    match e.event with
    | SEvent.roomState j _ => some j
    | _ => firstRoomState es

/- ### Derived predicates used by the verified properties -/

/-- Every room present in a registry list has a non-empty members map. -/
def RoomsInvL (rooms : List (String × Room)) : Prop :=
  ∀ b r, mapGet rooms b = some r → r.users ≠ []

/-- The claimed invariant on relay states: a board is in the registry only
with a non-empty members map. -/
def RoomsInv (s : ServerState) : Prop := RoomsInvL s.rooms

/-- Whether an inbound event is a `canvas-sync`. -/
def isCanvasSyncEvent : CEvent → Bool
  | CEvent.canvasSync _ _ _ => true
  | _ => false

/-- Whether an inbound event names board `b` in one of the two
create-on-demand handlers (`join-room` or `canvas-sync`). -/
def namesBoard (e : CEvent) (b : String) : Bool :=
  match e with
  | CEvent.joinRoom _ b' _ => b' = b
  | CEvent.canvasSync _ b' _ => b' = b
  | _ => false

/-- Concrete identity fixture used in witnesses. -/
def wUser1 : UserInfo := { userId := "u1", userName := "Alice", color := "red" }

/-- Concrete identity fixture used in witnesses. -/
def wUser2 : UserInfo := { userId := "u2", userName := "Bob", color := "blue" }

/-- Concrete two-member room fixture used in witnesses. -/
def wRoom : Room :=
  { canvasJSON := some "S", users := [("c1", wUser1), ("c2", wUser2)] }

/-- Concrete relay state fixture used in witnesses. -/
def wState : ServerState :=
  { rooms := [("b", wRoom)], conns := [("c1", some "b"), ("c2", some "b")] }

/-- Concrete one-member room fixture used in witnesses. -/
def wRoomSolo : Room := { canvasJSON := some "S", users := [("c1", wUser1)] }

/-- Concrete one-member relay state fixture used in witnesses. -/
def wStateSolo : ServerState :=
  { rooms := [("b", wRoomSolo)], conns := [("c1", some "b")] }

/- ### Client-side debounced sync (`Canvas.tsx`, `emitCanvasSync`) -/

/-- The debounce delay of `emitCanvasSync`, in milliseconds. -/
def debounceDelayMs : Nat := 120

/-- Client state relevant to the debounced `canvas-sync` emission: the canvas
contents, the echo-suppression flag `isRemoteUpdateRef`, the stored timer
handle `syncTimerRef`, the scheduled-but-not-yet-fired timeouts (handle and
delay), a fresh-handle counter, the local history log (`pushHistory`) and the
log of emitted `canvasJSON` payloads. -/
structure DebounceState (C : Type) where
  canvas : C
  isRemoteUpdate : Bool
  syncTimer : Option Nat
  timers : List (Nat × Nat)
  nextId : Nat
  history : List String
  emitted : List String
deriving DecidableEq

/-- `emitCanvasSync`: bail out while applying a remote update; otherwise
cancel the pending timeout (if any) and schedule a fresh 120 ms timeout,
storing its handle in `syncTimerRef`. -/
def emitCanvasSync {C : Type} (st : DebounceState C) : DebounceState C :=
  if st.isRemoteUpdate then st
  else
    let timers :=
      match st.syncTimer with
      | some tid => st.timers.filter (fun t => t.1 ≠ tid)
      | none => st.timers
    { st with timers := timers ++ [(st.nextId, debounceDelayMs)],
              syncTimer := some st.nextId,
              nextId := st.nextId + 1 }

/-- Discrete client events: a local canvas mutation (an `object:added` /
`object:modified` / `object:removed` callback running `saveAfterAction`) and
the firing of a scheduled timeout. -/
inductive ClEvent (C : Type) where
  | localMutate (f : C → C)
  | timerFire (id : Nat)

/-- One client transition.  A local mutation updates the canvas and runs
`saveAfterAction` (guard on `isRemoteUpdateRef`, then `saveHistory` and
`emitCanvasSync`).  A timeout that is still scheduled serializes the canvas
as of firing time, appends the emission, and clears `syncTimerRef`; a
cancelled timeout never runs. -/
def clientStep {C : Type} (serialize : C → String) (st : DebounceState C) :
    ClEvent C → DebounceState C
  | .localMutate f =>
      let st' := { st with canvas := f st.canvas }
      if st'.isRemoteUpdate then st'
      else emitCanvasSync { st' with history := st'.history ++ [serialize st'.canvas] }
  | .timerFire id =>
      if (st.timers.filter (fun t => t.1 = id)).length ≠ 0 then
        { st with emitted := st.emitted ++ [serialize st.canvas],
                  timers := st.timers.filter (fun t => t.1 ≠ id),
                  syncTimer := none }
      else st

/-- Process a sequence of client events. -/
def clientRun {C : Type} (serialize : C → String) (st : DebounceState C)
    (es : List (ClEvent C)) : DebounceState C :=
  es.foldl (clientStep serialize) st

/-- Client state as set up on mount: no pending timer, no suppression. -/
def initClient {C : Type} (c : C) : DebounceState C :=
  { canvas := c, isRemoteUpdate := false, syncTimer := none, timers := [],
    nextId := 0, history := [], emitted := [] }

/-- The single-pending-timer invariant: the scheduled timeouts are exactly
the one whose handle `syncTimerRef` stores (if any). -/
def timerInv {C : Type} (st : DebounceState C) : Prop :=
  st.timers =
    match st.syncTimer with
    | some tid => [(tid, debounceDelayMs)]
    | none => []

/- ### Client board store (`boardStore.ts`) -/

/-- `UserCursor` from `types.ts`. -/
structure UserCursor where
  x : Int
  y : Int
deriving DecidableEq

/-- `User` from `types.ts`: `{ id, name, color, cursor }`. -/
structure User where
  id : String
  name : String
  color : String
  cursor : UserCursor
deriving DecidableEq

/-- `addUser`: drop any entry with the same id, then append the new entry. -/
def addUser (s : List User) (u : User) : List User :=
  s.filter (fun v => v.id ≠ u.id) ++ [u]

/-- `removeUser`: drop the entry with the given id. -/
def removeUser (s : List User) (userId : String) : List User :=
  s.filter (fun v => v.id ≠ userId)

/-- `updateUserCursor`: update the cursor of the entry with the given id. -/
def updateUserCursor (s : List User) (userId : String) (x y : Int) : List User :=
  s.map (fun v => if v.id = userId then { v with cursor := { x := x, y := y } } else v)

/-- The three membership operations of the board store. -/
inductive StoreOp where
  | add (u : User)
  | remove (userId : String)
  | updCursor (userId : String) (x : Int) (y : Int)

/-- Apply one store operation to `activeUsers`. -/
def applyOp (s : List User) : StoreOp → List User
  | .add u => addUser s u
  | .remove uid => removeUser s uid
  | .updCursor uid x y => updateUserCursor s uid x y

/-- Run a sequence of store operations from the initial empty `activeUsers`. -/
def runOps (ops : List StoreOp) : List User :=
  ops.foldl applyOp []

/- ### Malformed-payload behaviour of the `join-room` handler -/

/-- The raw payload of a `join-room` event: each destructured field may be
`undefined`, and the payload itself may be absent. -/
structure RawJoinPayload where
  boardId : Option String
  userId : Option String
  userName : Option String
  color : Option String
deriving DecidableEq

/-- Member identity as stored when fields may be `undefined`. -/
structure RawUserInfo where
  userId : Option String
  userName : Option String
  color : Option String
deriving DecidableEq

/-- A registry room when keys and fields may be `undefined`. -/
structure RawRoom where
  canvasJSON : Option String
  users : List (String × RawUserInfo)
deriving DecidableEq

/-- The state-mutating part of the `join-room` handler on a raw payload, for
a fresh connection (`myBoardId = null`).  Destructuring `undefined` throws a
`TypeError`, modelled as `Except.error`; missing fields flow through as
`undefined` values, and `rooms.set` accepts `undefined` as a key. -/
def joinRoomRaw (rooms : List (Option String × RawRoom)) (sid : String)
    (payload : Option RawJoinPayload) :
    Except String (List (Option String × RawRoom)) :=
  match payload with
  | none => Except.error "TypeError: cannot destructure properties of undefined"
  | some p =>
      let q :=
        match mapGet rooms p.boardId with
        | some r => (r, rooms)
        | none =>
            (({ canvasJSON := none, users := [] } : RawRoom),
             mapSet rooms p.boardId { canvasJSON := none, users := [] })
      let room' : RawRoom :=
        { q.1 with users := mapSet q.1.users sid ⟨p.userId, p.userName, p.color⟩ }
      Except.ok (mapSet q.2 p.boardId room')

/- ### Basic facts about the `Map` embedding -/

theorem mapGet_set_self {K V : Type} [DecidableEq K] (m : List (K × V)) (k : K) (v : V) :
    mapGet (mapSet m k v) k = some v := by
  induction m with
  | nil => simp [mapSet, mapGet]
  | cons p t ih =>
      obtain ⟨k', v'⟩ := p
      by_cases h : k' = k
      · subst h; simp [mapSet, mapGet]
      · simp [mapSet, mapGet, h, ih]

theorem mapGet_set_ne {K V : Type} [DecidableEq K] (m : List (K × V)) (k k' : K) (v : V)
    (h : k' ≠ k) : mapGet (mapSet m k v) k' = mapGet m k' := by
  induction m with
  | nil => simp [mapSet, mapGet, Ne.symm h]
  | cons p t ih =>
      obtain ⟨k₀, v₀⟩ := p
      by_cases hk : k₀ = k
      · subst hk
        simp [mapSet, mapGet, Ne.symm h]
      · simp only [mapSet, if_neg hk]
        by_cases hk' : k₀ = k'
        · simp [mapGet, hk']
        · simp [mapGet, hk', ih]

theorem mapGet_delete_self {K V : Type} [DecidableEq K] (m : List (K × V)) (k : K) :
    mapGet (mapDelete m k) k = none := by
  induction m with
  | nil => simp [mapDelete, mapGet]
  | cons p t ih =>
      obtain ⟨k₀, v₀⟩ := p
      by_cases hk : k₀ = k
      · subst hk; simpa [mapDelete, mapGet] using ih
      · simpa [mapDelete, mapGet, hk] using ih

theorem mapGet_delete_ne {K V : Type} [DecidableEq K] (m : List (K × V)) (k k' : K)
    (h : k' ≠ k) : mapGet (mapDelete m k) k' = mapGet m k' := by
  induction m with
  | nil => simp [mapDelete, mapGet]
  | cons p t ih =>
      obtain ⟨k₀, v₀⟩ := p
      by_cases hk : k₀ = k
      · subst hk
        simpa [mapDelete, mapGet, Ne.symm h] using ih
      · by_cases hk' : k₀ = k'
        · simp [mapDelete, mapGet, hk, hk', h]
        · simpa [mapDelete, mapGet, hk, hk'] using ih

theorem mapSet_eq_of_get {K V : Type} [DecidableEq K] (m : List (K × V)) (k : K) (v : V)
    (h : mapGet m k = some v) : mapSet m k v = m := by
  induction m with
  | nil => simp [mapGet] at h
  | cons p t ih =>
      obtain ⟨k₀, v₀⟩ := p
      by_cases hk : k₀ = k
      · subst hk
        simp [mapGet] at h
        simp [mapSet, h]
      · simp only [mapGet, if_neg hk] at h
        simp [mapSet, hk, ih h]

theorem mem_keys_mapSet {K V : Type} [DecidableEq K] (m : List (K × V)) (k : K) (v : V) :
    k ∈ (mapSet m k v).map Prod.fst := by
  induction m with
  | nil => simp [mapSet]
  | cons p t ih =>
      obtain ⟨k₀, v₀⟩ := p
      by_cases hk : k₀ = k
      · subst hk; simp [mapSet]
      · simp [mapSet, hk, ih]

theorem filter_ne_mapSet {K V : Type} [DecidableEq K] (m : List (K × V)) (k : K) (v : V) :
    (mapSet m k v).filter (fun p => p.1 ≠ k) = m.filter (fun p => p.1 ≠ k) := by
  induction m with
  | nil => simp [mapSet]
  | cons p t ih =>
      obtain ⟨k₀, v₀⟩ := p
      by_cases hk : k₀ = k
      · subst hk; simp [mapSet, List.filter_cons]
      · have hd : (decide (k₀ ≠ k)) = true := by simp [hk]
        simp only [mapSet, if_neg hk, List.filter_cons, hd, if_true]
        rw [ih]

theorem not_mem_filter_ne {K V : Type} [DecidableEq K] (m : List (K × V)) (k : K) :
    k ∉ (m.filter (fun p => p.1 ≠ k)).map Prod.fst := by
  intro hmem
  simp only [List.mem_map, List.mem_filter] at hmem
  obtain ⟨p, ⟨_, hp⟩, hk⟩ := hmem
  subst hk
  simp at hp

theorem mem_mapSet_self {K V : Type} [DecidableEq K] (m : List (K × V)) (k : K) (v : V) :
    (k, v) ∈ mapSet m k v := by
  induction m with
  | nil => simp [mapSet]
  | cons p t ih =>
      obtain ⟨k₀, v₀⟩ := p
      by_cases hk : k₀ = k
      · subst hk; simp [mapSet]
      · simp [mapSet, hk, ih]

theorem myBoardOf_eq_some (s : ServerState) (sid : String) (b : String)
    (h : myBoardOf s sid = some b) : mapGet s.conns sid = some (some b) := by
  unfold myBoardOf at h
  cases hc : mapGet s.conns sid with
  | none => rw [hc] at h; simp at h
  | some mb =>
      rw [hc] at h
      dsimp only at h
      rw [h]

theorem mapSet_mapSet {K V : Type} [DecidableEq K] (m : List (K × V)) (k : K) (v v' : V) :
    mapSet (mapSet m k v) k v' = mapSet m k v' := by
  induction m with
  | nil => simp [mapSet]
  | cons p t ih =>
      obtain ⟨k₀, v₀⟩ := p
      by_cases hk : k₀ = k
      · subst hk; simp [mapSet]
      · simp [mapSet, hk, ih]

theorem mapSet_ne_nil {K V : Type} [DecidableEq K] (m : List (K × V)) (k : K) (v : V) :
    mapSet m k v ≠ [] := by
  cases m with
  | nil => simp [mapSet]
  | cons p t =>
      obtain ⟨k₀, v₀⟩ := p
      by_cases hk : k₀ = k <;> simp [mapSet, hk]

/- ### Canonical forms of the relay handlers -/

theorem mapGet_clean_ne (rooms : List (String × Room)) (prev b : String) (h : b ≠ prev) :
    mapGet (cleanEmptyRoom rooms prev) b = mapGet rooms b := by
  unfold cleanEmptyRoom
  cases hp : mapGet rooms prev with
  | none => rfl
  | some room =>
      by_cases hz : room.users.length = 0
      · simp only [if_pos hz]
        exact mapGet_delete_ne _ _ _ h
      · simp only [if_neg hz]

theorem leavePrev_get_ne (rooms : List (String × Room)) (sid prev b : String)
    (h : b ≠ prev) : mapGet (leavePrev rooms sid prev).1 b = mapGet rooms b := by
  unfold leavePrev
  cases hp : mapGet rooms prev with
  | none => rfl
  | some prevRoom =>
      simp only
      rw [mapGet_clean_ne _ _ _ h, mapGet_set_ne _ _ _ _ h]

theorem leavePrev_get_none (rooms : List (String × Room)) (sid prev b : String)
    (h : mapGet rooms b = none) : mapGet (leavePrev rooms sid prev).1 b = none := by
  by_cases hb : b = prev
  · subst hb
    unfold leavePrev
    rw [h]
    exact h
  · rw [leavePrev_get_ne _ _ _ _ hb]; exact h

theorem joinPrevPart_get_b (s : ServerState) (sid b : String) :
    mapGet (joinPrevPart s sid b).1 b = mapGet s.rooms b := by
  unfold joinPrevPart
  cases hmb : myBoardOf s sid with
  | none => rfl
  | some prev =>
      by_cases hpb : prev ≠ b
      · simp only [if_pos hpb]
        exact leavePrev_get_ne _ _ _ _ (fun hh => hpb hh.symm)
      · simp only [if_neg hpb]

theorem joinPrevPart_get_none (s : ServerState) (sid b₂ b : String)
    (h : mapGet s.rooms b = none) : mapGet (joinPrevPart s sid b₂).1 b = none := by
  unfold joinPrevPart
  cases hmb : myBoardOf s sid with
  | none => exact h
  | some prev =>
      by_cases hpb : prev ≠ b₂
      · simp only [if_pos hpb]
        exact leavePrev_get_none _ _ _ _ h
      · simp only [if_neg hpb]; exact h

theorem joinPrevPart_emits (s : ServerState) (sid b : String) :
    (joinPrevPart s sid b).2 = []
    ∨ ∃ users : List (String × UserInfo),
        (joinPrevPart s sid b).2 =
          [{ targets := (mapDelete users sid).map Prod.fst,
             event := SEvent.usersUpdate ((mapDelete users sid).map Prod.snd) }] := by
  unfold joinPrevPart
  cases hmb : myBoardOf s sid with
  | none => exact Or.inl rfl
  | some prev =>
      by_cases hpb : prev ≠ b
      · simp only [if_pos hpb]
        unfold leavePrev
        cases hp : mapGet s.rooms prev with
        | none => exact Or.inl rfl
        | some prevRoom =>
            simp only [broadcastUsers, mapGet_set_self]
            exact Or.inr ⟨prevRoom.users, rfl⟩
      · exact Or.inl (by simp only [if_neg hpb])

theorem handleCanvasSync_eq (s : ServerState) (sid b j : String) :
    handleCanvasSync s sid b j =
      ({ rooms := mapSet s.rooms b { canvasJSON := some j, users := roomUsers s b },
         conns := s.conns },
       [{ targets := (roomUsersIds s b).filter (fun m => m ≠ sid),
          event := SEvent.canvasSyncOut j }]) := by
  unfold handleCanvasSync getRoom roomUsersIds roomUsers
  cases h : mapGet s.rooms b with
  | some r => simp [h]
  | none => simp [h, emptyRoom, mapSet_mapSet]

theorem handleJoin_eq (s : ServerState) (sid b : String) (u : UserInfo) :
    handleJoin s sid b u =
      ({ rooms := mapSet (joinPrevPart s sid b).1 b
           { canvasJSON := roomSnapshot s b, users := mapSet (roomUsers s b) sid u },
         conns := mapSet s.conns sid (some b) },
       (joinPrevPart s sid b).2
         ++ [{ targets := [sid],
               event := SEvent.roomState (roomSnapshot s b)
                 (((roomUsers s b).filter (fun p => p.1 ≠ sid)).map Prod.snd) },
             { targets := (mapSet (roomUsers s b) sid u).map Prod.fst,
               event := SEvent.usersUpdate ((mapSet (roomUsers s b) sid u).map Prod.snd) }]) := by
  simp only [handleJoin, getRoom]
  rw [joinPrevPart_get_b]
  cases h : mapGet s.rooms b with
  | some r =>
      have hf := filter_ne_mapSet r.users sid u
      simp only [ne_eq, decide_not] at hf
      simp [h, roomSnapshot, roomUsers, broadcastUsers, mapGet_set_self, hf]
  | none =>
      simp [h, roomSnapshot, roomUsers, broadcastUsers, emptyRoom, mapSet, mapSet_mapSet,
            mapGet_set_self]

theorem join_firstRoomState (s : ServerState) (sid b : String) (u : UserInfo) :
    firstRoomState (step s (CEvent.joinRoom sid b u)).2 = some (roomSnapshot s b) := by
  show firstRoomState (handleJoin s sid b u).2 = _
  rw [handleJoin_eq]
  rcases joinPrevPart_emits s sid b with h2 | ⟨us, h2⟩ <;> rw [h2] <;> rfl

/- ### The registry invariant (claim C4) -/

theorem roomsInv_mapSet (rooms : List (String × Room)) (b : String) (room' : Room)
    (h : RoomsInvL rooms) (hne : room'.users ≠ []) :
    RoomsInvL (mapSet rooms b room') := by
  intro b₀ r₀ h₀
  by_cases hb : b₀ = b
  · subst hb
    rw [mapGet_set_self] at h₀
    cases h₀
    exact hne
  · rw [mapGet_set_ne _ _ _ _ hb] at h₀
    exact h _ _ h₀

theorem roomsInv_clean_set (rooms : List (String × Room)) (b : String) (room' : Room)
    (h : RoomsInvL rooms) : RoomsInvL (cleanEmptyRoom (mapSet rooms b room') b) := by
  unfold cleanEmptyRoom
  rw [mapGet_set_self]
  dsimp only
  by_cases hz : room'.users.length = 0
  · rw [if_pos hz]
    intro b₀ r₀ h₀
    by_cases hb : b₀ = b
    · subst hb
      rw [mapGet_delete_self] at h₀
      cases h₀
    · rw [mapGet_delete_ne _ _ _ hb, mapGet_set_ne _ _ _ _ hb] at h₀
      exact h _ _ h₀
  · rw [if_neg hz]
    refine roomsInv_mapSet _ _ _ h ?_
    intro hnil
    exact hz (by rw [hnil]; rfl)

theorem roomsInv_leavePrev (rooms : List (String × Room)) (sid prev : String)
    (h : RoomsInvL rooms) : RoomsInvL (leavePrev rooms sid prev).1 := by
  unfold leavePrev
  cases hp : mapGet rooms prev with
  | none => exact h
  | some prevRoom => exact roomsInv_clean_set _ _ _ h

theorem roomsInv_joinPrevPart (s : ServerState) (sid b : String)
    (h : RoomsInvL s.rooms) : RoomsInvL (joinPrevPart s sid b).1 := by
  unfold joinPrevPart
  cases hmb : myBoardOf s sid with
  | none => exact h
  | some prev =>
      by_cases hpb : prev ≠ b
      · simp only [if_pos hpb]
        exact roomsInv_leavePrev _ _ _ h
      · simp only [if_neg hpb]
        exact h

/-- C4 (amended): `join-room`, `disconnect`, `connect`, `cursor-move` and
`ping` all preserve the invariant that every board present in the registry
has a non-empty members map (rooms are created on first join and deleted on
last leave); only `canvas-sync` can break it, because its `getRoom` call is
also create-on-demand. -/
theorem rooms_registry_nonempty_invariant (s : ServerState) (e : CEvent)
    (hInv : RoomsInv s) (he : isCanvasSyncEvent e = false) :
    RoomsInv (step s e).1 := by
  cases e with
  | connect sid => exact hInv
  | ping sid => exact hInv
  | cursorMove sid b uid x y => exact hInv
  | canvasSync sid b j => simp [isCanvasSyncEvent] at he
  | joinRoom sid b u =>
      show RoomsInv (handleJoin s sid b u).1
      rw [handleJoin_eq]
      exact roomsInv_mapSet _ _ _ (roomsInv_joinPrevPart s sid b hInv) (mapSet_ne_nil _ _ _)
  | disconnect sid =>
      show RoomsInv (handleDisconnect s sid).1
      unfold handleDisconnect
      cases hmb : myBoardOf s sid with
      | none => exact hInv
      | some b =>
          dsimp only
          cases hr : mapGet s.rooms b with
          | none => exact hInv
          | some room => exact roomsInv_clean_set _ _ _ hInv

/-- Witness for `rooms_registry_nonempty_invariant` at a concrete input. -/
theorem rooms_registry_nonempty_invariant_witness :
    RoomsInv initState
    ∧ isCanvasSyncEvent (CEvent.joinRoom "c1" "b" ⟨"u1", "Alice", "red"⟩) = false
    ∧ RoomsInv (step initState (CEvent.joinRoom "c1" "b" ⟨"u1", "Alice", "red"⟩)).1 := by
  have h0 : RoomsInv initState := by
    intro b r h
    simp [initState, mapGet] at h
  exact ⟨h0, rfl, rooms_registry_nonempty_invariant initState _ h0 rfl⟩

/-- C4 counterexample: in the reachable state obtained by a `canvas-sync`
naming a board no one has joined, the registry holds that board with an
empty members map, so the claimed if-and-only-if invariant fails. -/
theorem rooms_registry_empty_room_reachable :
    mapGet (run initState [CEvent.connect "c1", CEvent.canvasSync "c1" "b" "J"]).rooms "b"
      = some { canvasJSON := some "J", users := [] } := by rfl

/- ### Claims C1 and C5 -/

/-- C1: a `canvas-sync {boardId, canvasJSON}` from connection `sid`
overwrites room `boardId`'s stored snapshot with the payload unconditionally
(no merge, no version check, members untouched), forwards exactly one
`canvas-sync` carrying that payload whose audience is every member of the
room other than `sid`, and never delivers it back to `sid`. -/
theorem canvas_sync_overwrite_forward_no_echo (s : ServerState) (sid b j : String) :
    roomSnapshot (step s (CEvent.canvasSync sid b j)).1 b = some j
    ∧ roomUsers (step s (CEvent.canvasSync sid b j)).1 b = roomUsers s b
    ∧ (step s (CEvent.canvasSync sid b j)).2 =
        [{ targets := (roomUsersIds s b).filter (fun m => m ≠ sid),
           event := SEvent.canvasSyncOut j }]
    ∧ (∀ m, m ∈ roomUsersIds s b → m ≠ sid →
          ∀ e ∈ (step s (CEvent.canvasSync sid b j)).2, m ∈ e.targets)
    ∧ (∀ e ∈ (step s (CEvent.canvasSync sid b j)).2, sid ∉ e.targets) := by
  have h : step s (CEvent.canvasSync sid b j) = handleCanvasSync s sid b j := rfl
  rw [h, handleCanvasSync_eq]
  refine ⟨?_, ?_, rfl, ?_, ?_⟩
  · simp [roomSnapshot, mapGet_set_self]
  · simp [roomUsers, mapGet_set_self]
  · intro m hm hne e he
    simp only [List.mem_singleton] at he
    subst he
    simp [List.mem_filter, hm, hne]
  · intro e he
    simp only [List.mem_singleton] at he
    subst he
    simp [List.mem_filter]

/-- C5 (amended): a `cursor-move` naming a board with no active room is a
complete no-op (state unchanged, empty audience); a `canvas-sync` naming
such a board forwards to nobody but is not a registry no-op — `getRoom` is
create-on-demand there too, so it installs a fresh room holding the payload
as snapshot and no members. -/
theorem unknown_board_data_events (s : ServerState) (sid b uid : String) (x y : Int)
    (j : String) (h : mapGet s.rooms b = none) :
    (step s (CEvent.cursorMove sid b uid x y)).1 = s
    ∧ (∀ e ∈ (step s (CEvent.cursorMove sid b uid x y)).2, e.targets = [])
    ∧ (step s (CEvent.canvasSync sid b j)).1.rooms
        = mapSet s.rooms b { canvasJSON := some j, users := [] }
    ∧ (∀ e ∈ (step s (CEvent.canvasSync sid b j)).2, e.targets = []) := by
  have hc : step s (CEvent.canvasSync sid b j) = handleCanvasSync s sid b j := rfl
  have hu : roomUsers s b = [] := by simp [roomUsers, h]
  refine ⟨rfl, ?_, ?_, ?_⟩
  · intro e he
    show e.targets = []
    have : (step s (CEvent.cursorMove sid b uid x y)).2 =
        [{ targets := [], event := SEvent.cursorMoveOut uid x y }] := by
      show (handleCursorMove s sid b uid x y).2 = _
      unfold handleCursorMove
      rw [h]
    rw [this] at he
    simp only [List.mem_singleton] at he
    subst he
    rfl
  · rw [hc, handleCanvasSync_eq]
    simp [hu]
  · intro e he
    rw [hc, handleCanvasSync_eq] at he
    simp only [List.mem_singleton] at he
    subst he
    simp [roomUsersIds, hu]

/-- Witness for `unknown_board_data_events` at a concrete input. -/
theorem unknown_board_data_events_witness :
    mapGet initState.rooms "b" = none
    ∧ ((step initState (CEvent.cursorMove "c1" "b" "u1" 3 4)).1 = initState
       ∧ (∀ e ∈ (step initState (CEvent.cursorMove "c1" "b" "u1" 3 4)).2, e.targets = [])
       ∧ (step initState (CEvent.canvasSync "c1" "b" "J")).1.rooms
           = mapSet initState.rooms "b" { canvasJSON := some "J", users := [] }
       ∧ (∀ e ∈ (step initState (CEvent.canvasSync "c1" "b" "J")).2, e.targets = [])) :=
  ⟨rfl, unknown_board_data_events initState "c1" "b" "u1" 3 4 "J" rfl⟩

/-- C5 counterexample: a `canvas-sync` for a board with no active room is
not a registry no-op — it creates the room. -/
theorem canvas_sync_creates_room :
    (step { rooms := [], conns := [("c1", none)] } (CEvent.canvasSync "c1" "b" "J")).1.rooms
      = [("b", { canvasJSON := some "J", users := [] })] := by rfl

/- ### Claim C10: uniqueness of ids in the board store -/

theorem updateUserCursor_ids (s : List User) (uid : String) (x y : Int) :
    (updateUserCursor s uid x y).map User.id = s.map User.id := by
  unfold updateUserCursor
  induction s with
  | nil => rfl
  | cons v t ih =>
      simp only [List.map_cons, ih]
      by_cases h : v.id = uid
      · simp [h]
      · simp [h]

theorem filter_self_idem {α : Type} (p : α → Bool) (l : List α) :
    (l.filter p).filter p = l.filter p := by
  induction l with
  | nil => rfl
  | cons a t ih =>
      cases hpa : p a with
      | true => simp [List.filter_cons, hpa, ih]
      | false => simp [List.filter_cons, hpa, ih]

theorem applyOp_nodup (s : List User) (op : StoreOp)
    (h : (s.map User.id).Nodup) : ((applyOp s op).map User.id).Nodup := by
  cases op with
  | add u =>
      show ((addUser s u).map User.id).Nodup
      unfold addUser
      rw [List.map_append]
      refine List.Nodup.append ?_ (by simp) ?_
      · exact List.Nodup.sublist (List.Sublist.map _ (List.filter_sublist s)) h
      · intro a ha
        simp only [List.mem_map, List.mem_filter] at ha
        obtain ⟨v, ⟨hv, hvp⟩, rfl⟩ := ha
        simp only [List.map_cons, List.map_nil, List.mem_singleton]
        intro hva
        simp [hva] at hvp
  | remove uid =>
      exact List.Nodup.sublist (List.Sublist.map _ (List.filter_sublist s)) h
  | updCursor uid x y =>
      show ((updateUserCursor s uid x y).map User.id).Nodup
      rw [updateUserCursor_ids]
      exact h

theorem runOps_nodup (ops : List StoreOp) : ((runOps ops).map User.id).Nodup := by
  suffices h : ∀ s, (s.map User.id).Nodup → ((ops.foldl applyOp s).map User.id).Nodup by
    exact h [] (by simp)
  induction ops with
  | nil => intro s hs; exact hs
  | cons op t ih =>
      intro s hs
      exact ih _ (applyOp_nodup s op hs)

/-- C10: starting from the empty `activeUsers`, every sequence of `addUser`,
`removeUser` and `updateUserCursor` operations leaves at most one entry per
user id; and `addUser` with an id already present ends with exactly one entry
carrying that id (the new one) while entries with other ids are unchanged. -/
theorem active_users_unique_ids (ops : List StoreOp) (s : List User) (u : User) :
    ((runOps ops).map User.id).Nodup
    ∧ (addUser s u).filter (fun v => v.id = u.id) = [u]
    ∧ (addUser s u).filter (fun v => v.id ≠ u.id) = s.filter (fun v => v.id ≠ u.id) := by
  refine ⟨runOps_nodup ops, ?_, ?_⟩
  · unfold addUser
    rw [List.filter_append]
    have h1 : (s.filter (fun v => v.id ≠ u.id)).filter (fun v => v.id = u.id) = [] := by
      refine List.eq_nil_iff_forall_not_mem.mpr ?_
      intro v hv
      simp only [List.mem_filter] at hv
      obtain ⟨⟨_, hne⟩, he⟩ := hv
      simp only [decide_eq_true_eq] at he
      simp [he] at hne
    rw [h1]
    simp
  · unfold addUser
    rw [List.filter_append, filter_self_idem]
    simp

/- ### Claims C2 and C8: the join-room announcements -/

/-- C2: a `join-room` for board `b` on connection `sid` delivers to `sid`
exactly two events, in order: first a `room-state` addressed to `sid` alone,
carrying board `b`'s current snapshot and the identities of the other members
(`sid` excluded), then the `users-update` broadcast carrying the full member
identity list of room `b`, addressed to every member of room `b` including
`sid`. -/
theorem join_room_emits_state_and_presence (s : ServerState) (sid b : String)
    (u : UserInfo) :
    ((step s (CEvent.joinRoom sid b u)).2).filter (fun e => sid ∈ e.targets) =
      [{ targets := [sid],
         event := SEvent.roomState (roomSnapshot s b)
           (((roomUsers s b).filter (fun p => p.1 ≠ sid)).map Prod.snd) },
       { targets := (mapSet (roomUsers s b) sid u).map Prod.fst,
         event := SEvent.usersUpdate ((mapSet (roomUsers s b) sid u).map Prod.snd) }]
    ∧ roomUsers (step s (CEvent.joinRoom sid b u)).1 b = mapSet (roomUsers s b) sid u
    ∧ sid ∈ (mapSet (roomUsers s b) sid u).map Prod.fst := by
  have hstep : step s (CEvent.joinRoom sid b u) = handleJoin s sid b u := rfl
  rw [hstep, handleJoin_eq]
  refine ⟨?_, ?_, mem_keys_mapSet _ _ _⟩
  · rw [List.filter_append]
    have h1 : ((joinPrevPart s sid b).2).filter (fun e => sid ∈ e.targets) = [] := by
      rcases joinPrevPart_emits s sid b with h2 | ⟨us, h2⟩
      · rw [h2]; rfl
      · rw [h2]
        have hni : sid ∉ (mapDelete us sid).map Prod.fst := not_mem_filter_ne us sid
        simp [hni]
    rw [h1]
    simp only [List.nil_append]
    have hA : (decide (sid ∈ ([sid] : List String))) = true := by simp
    have hB : (decide (sid ∈ (mapSet (roomUsers s b) sid u).map Prod.fst)) = true := by
      simp only [decide_eq_true_eq]
      exact mem_keys_mapSet _ _ _
    simp [List.filter_cons, hA, hB]
  · simp [roomUsers, mapGet_set_self]

/-- C8: a duplicate `join-room` for the same board on the same connection
leaves the relay state exactly unchanged (the identity entry is overwritten
with an equal value, no member is removed, no room is deleted) and merely
re-announces: it re-emits `room-state` to the joiner and `users-update` to
the room's members. -/
theorem duplicate_join_idempotent (s : ServerState) (sid b : String) (u : UserInfo)
    (r : Room) (hmb : myBoardOf s sid = some b) (hr : mapGet s.rooms b = some r)
    (hu : mapGet r.users sid = some u) :
    (step s (CEvent.joinRoom sid b u)).1 = s
    ∧ (step s (CEvent.joinRoom sid b u)).2 =
        [{ targets := [sid],
           event := SEvent.roomState r.canvasJSON
             ((r.users.filter (fun p => p.1 ≠ sid)).map Prod.snd) },
         { targets := r.users.map Prod.fst,
           event := SEvent.usersUpdate (r.users.map Prod.snd) }] := by
  have hconn : mapGet s.conns sid = some (some b) := myBoardOf_eq_some s sid b hmb
  have hru : roomUsers s b = r.users := by simp [roomUsers, hr]
  have husers : mapSet (roomUsers s b) sid u = r.users := by
    rw [hru]
    exact mapSet_eq_of_get _ _ _ hu
  have hsnap : roomSnapshot s b = r.canvasJSON := by simp [roomSnapshot, hr]
  have hprev : joinPrevPart s sid b = (s.rooms, []) := by
    unfold joinPrevPart
    rw [hmb]
    simp
  have hstep : step s (CEvent.joinRoom sid b u) = handleJoin s sid b u := rfl
  rw [hstep, handleJoin_eq, hprev]
  constructor
  · dsimp only
    rw [husers, hsnap]
    have hroom : ({ canvasJSON := r.canvasJSON, users := r.users } : Room) = r := rfl
    rw [hroom, mapSet_eq_of_get _ _ _ hr, mapSet_eq_of_get _ _ _ hconn]
  · dsimp only
    rw [husers, hsnap, hru]
    simp

/-- Witness for `duplicate_join_idempotent` at a concrete two-member state. -/
theorem duplicate_join_idempotent_witness :
    myBoardOf wState "c1" = some "b"
    ∧ mapGet wState.rooms "b" = some wRoom
    ∧ mapGet wRoom.users "c1" = some wUser1
    ∧ ((step wState (CEvent.joinRoom "c1" "b" wUser1)).1 = wState
       ∧ (step wState (CEvent.joinRoom "c1" "b" wUser1)).2 =
           [{ targets := ["c1"],
              event := SEvent.roomState wRoom.canvasJSON
                ((wRoom.users.filter (fun p => p.1 ≠ "c1")).map Prod.snd) },
            { targets := wRoom.users.map Prod.fst,
              event := SEvent.usersUpdate (wRoom.users.map Prod.snd) }]) :=
  ⟨rfl, rfl, rfl, duplicate_join_idempotent wState "c1" "b" wUser1 wRoom rfl rfl rfl⟩

/- ### Claim C3: snapshot correctness for late joiners -/

theorem run_canvas_syncs_snapshot (b : String) (syncs : List (String × String)) :
    ∀ s : ServerState,
      roomSnapshot (run s (syncs.map (fun p => CEvent.canvasSync p.1 b p.2))) b
        = match (syncs.map Prod.snd).getLast? with
          | some j => some j
          | none => roomSnapshot s b := by
  induction syncs with
  | nil => intro s; rfl
  | cons p rest ih =>
      intro s
      obtain ⟨sid, j⟩ := p
      have hstep : roomSnapshot (step s (CEvent.canvasSync sid b j)).1 b = some j := by
        have h : step s (CEvent.canvasSync sid b j) = handleCanvasSync s sid b j := rfl
        rw [h, handleCanvasSync_eq]
        simp [roomSnapshot, mapGet_set_self]
      have hrun : run s (((sid, j) :: rest).map (fun p => CEvent.canvasSync p.1 b p.2))
          = run (step s (CEvent.canvasSync sid b j)).1
              (rest.map (fun p => CEvent.canvasSync p.1 b p.2)) := rfl
      rw [hrun, ih]
      simp only [List.map_cons]
      cases hr : rest.map Prod.snd with
      | nil => exact hstep
      | cons c l => rfl

/-- C3: starting from a state in which board `b` carries no snapshot, after
any sequence of `canvas-sync` events on `b`, a joining client's `room-state`
carries the payload of the most recent `canvas-sync`, or `null` if none
occurred. -/
theorem join_snapshot_most_recent (s : ServerState) (b : String)
    (syncs : List (String × String)) (c : String) (u : UserInfo)
    (h : roomSnapshot s b = none) :
    firstRoomState (step (run s (syncs.map (fun p => CEvent.canvasSync p.1 b p.2)))
        (CEvent.joinRoom c b u)).2
      = some ((syncs.map Prod.snd).getLast?) := by
  rw [join_firstRoomState, run_canvas_syncs_snapshot]
  cases hr : (syncs.map Prod.snd).getLast? with
  | some j => rfl
  | none => rw [h]

/-- Witness for `join_snapshot_most_recent` on a two-sync sequence. -/
theorem join_snapshot_most_recent_witness :
    roomSnapshot initState "b" = none
    ∧ firstRoomState (step (run initState ([("c1", "J1"), ("c2", "J2")].map
          (fun p => CEvent.canvasSync p.1 "b" p.2)))
        (CEvent.joinRoom "c3" "b" wUser1)).2
      = some (([("c1", "J1"), ("c2", "J2")].map Prod.snd).getLast?) :=
  ⟨rfl, join_snapshot_most_recent initState "b" [("c1", "J1"), ("c2", "J2")]
    "c3" wUser1 rfl⟩

/- ### Claim C6: empty-room cleanup -/

theorem step_preserves_absent (s : ServerState) (e : CEvent) (b : String)
    (h : mapGet s.rooms b = none) (he : namesBoard e b = false) :
    mapGet (step s e).1.rooms b = none := by
  cases e with
  | connect sid => exact h
  | ping sid => exact h
  | cursorMove sid b' uid x y => exact h
  | joinRoom sid b' u =>
      have hb : ¬b' = b := by simpa [namesBoard] using he
      show mapGet (handleJoin s sid b' u).1.rooms b = none
      rw [handleJoin_eq]
      show mapGet (mapSet (joinPrevPart s sid b').1 b' _) b = none
      rw [mapGet_set_ne _ _ _ _ (fun hh => hb hh.symm)]
      exact joinPrevPart_get_none s sid b' b h
  | canvasSync sid b' j =>
      have hb : ¬b' = b := by simpa [namesBoard] using he
      show mapGet (handleCanvasSync s sid b' j).1.rooms b = none
      rw [handleCanvasSync_eq]
      show mapGet (mapSet s.rooms b' _) b = none
      rw [mapGet_set_ne _ _ _ _ (fun hh => hb hh.symm)]
      exact h
  | disconnect sid =>
      show mapGet (handleDisconnect s sid).1.rooms b = none
      unfold handleDisconnect
      cases hmb : myBoardOf s sid with
      | none => exact h
      | some b₂ =>
          dsimp only
          cases hr : mapGet s.rooms b₂ with
          | none => exact h
          | some room =>
              have hbb : b ≠ b₂ := by
                intro hh
                subst hh
                rw [h] at hr
                cases hr
              dsimp only
              show mapGet (cleanEmptyRoom (mapSet s.rooms b₂ _) b₂) b = none
              rw [mapGet_clean_ne _ _ _ hbb, mapGet_set_ne _ _ _ _ hbb]
              exact h

theorem run_preserves_absent (b : String) (es : List CEvent) :
    ∀ s : ServerState, mapGet s.rooms b = none →
      (∀ e ∈ es, namesBoard e b = false) →
      mapGet (run s es).rooms b = none := by
  induction es with
  | nil => intro s h _; exact h
  | cons e t ih =>
      intro s h hall
      exact ih _ (step_preserves_absent s e b h (hall e (by simp)))
        (fun e' he' => hall e' (by simp [he']))

/-- C6 (amended): after the sole member of a room disconnects, the registry
no longer holds the board; a later join receives a `null` snapshot provided
no interim event names that board in a create-on-demand handler (`join-room`
or `canvas-sync`) — an interim `canvas-sync` instead recreates the room
carrying its payload, which the join then receives. -/
theorem empty_room_cleanup (s : ServerState) (sid b : String) (u : UserInfo)
    (r : Room) (es : List CEvent) (c : String) (u' : UserInfo)
    (h1 : myBoardOf s sid = some b) (h2 : mapGet s.rooms b = some r)
    (h3 : r.users = [(sid, u)])
    (h4 : ∀ e ∈ es, namesBoard e b = false) :
    mapGet (step s (CEvent.disconnect sid)).1.rooms b = none
    ∧ firstRoomState (step (run (step s (CEvent.disconnect sid)).1 es)
        (CEvent.joinRoom c b u')).2 = some none := by
  have hdel : mapDelete r.users sid = [] := by
    rw [h3]
    simp [mapDelete]
  have hgone : mapGet (step s (CEvent.disconnect sid)).1.rooms b = none := by
    show mapGet (handleDisconnect s sid).1.rooms b = none
    unfold handleDisconnect
    rw [h1]
    dsimp only
    rw [h2]
    dsimp only
    rw [hdel]
    unfold cleanEmptyRoom
    rw [mapGet_set_self]
    dsimp only
    simp [mapGet_delete_self]
  refine ⟨hgone, ?_⟩
  rw [join_firstRoomState]
  have habs : mapGet (run (step s (CEvent.disconnect sid)).1 es).rooms b = none :=
    run_preserves_absent b es _ hgone h4
  simp [roomSnapshot, habs]

/-- Witness for `empty_room_cleanup` on a concrete one-member room and an
interim event list that names only other boards. -/
theorem empty_room_cleanup_witness :
    myBoardOf wStateSolo "c1" = some "b"
    ∧ mapGet wStateSolo.rooms "b" = some wRoomSolo
    ∧ wRoomSolo.users = [("c1", wUser1)]
    ∧ (∀ e ∈ [CEvent.connect "c2", CEvent.canvasSync "c2" "other" "J"],
        namesBoard e "b" = false)
    ∧ (mapGet (step wStateSolo (CEvent.disconnect "c1")).1.rooms "b" = none
       ∧ firstRoomState (step (run (step wStateSolo (CEvent.disconnect "c1")).1
            [CEvent.connect "c2", CEvent.canvasSync "c2" "other" "J"])
          (CEvent.joinRoom "c3" "b" wUser2)).2 = some none) :=
  ⟨rfl, rfl, rfl, by decide,
   empty_room_cleanup wStateSolo "c1" "b" wUser1 wRoomSolo
     [CEvent.connect "c2", CEvent.canvasSync "c2" "other" "J"] "c3" wUser2
     rfl rfl rfl (by decide)⟩

/-- C6 counterexample: after the sole member of board `"b"` disconnects the
registry drops the board, but an interim `canvas-sync` recreates the room,
so the next join receives that payload instead of the claimed `null`. -/
theorem stale_snapshot_after_interim_sync :
    mapGet (run initState [CEvent.connect "c1", CEvent.joinRoom "c1" "b" wUser1,
        CEvent.disconnect "c1"]).rooms "b" = none
    ∧ firstRoomState (step (run initState [CEvent.connect "c1",
        CEvent.joinRoom "c1" "b" wUser1, CEvent.disconnect "c1", CEvent.connect "c2",
        CEvent.canvasSync "c2" "b" "J"]) (CEvent.joinRoom "c3" "b" wUser2)).2
      = some (some "J") := ⟨rfl, rfl⟩

/- ### Claim C7: debounce coalescing -/

theorem emitCanvasSync_timerInv {C : Type} (st : DebounceState C) (h : timerInv st) :
    timerInv (emitCanvasSync st) := by
  unfold emitCanvasSync
  by_cases hr : st.isRemoteUpdate
  · rw [if_pos hr]; exact h
  · rw [if_neg hr]
    unfold timerInv at h ⊢
    cases hs : st.syncTimer with
    | none =>
        rw [hs] at h
        simp [hs, h]
    | some tid =>
        rw [hs] at h
        simp [hs, h]

theorem clientStep_timerInv {C : Type} (serialize : C → String) (st : DebounceState C)
    (e : ClEvent C) (h : timerInv st) : timerInv (clientStep serialize st e) := by
  cases e with
  | localMutate f =>
      unfold clientStep
      dsimp only
      by_cases hr : st.isRemoteUpdate = true
      · rw [if_pos hr]; exact h
      · rw [if_neg hr]
        exact emitCanvasSync_timerInv _ h
  | timerFire id =>
      unfold clientStep
      dsimp only
      by_cases hg : (st.timers.filter (fun t => t.1 = id)).length ≠ 0
      · rw [if_pos hg]
        unfold timerInv at h ⊢
        dsimp only
        cases hs : st.syncTimer with
        | none =>
            rw [hs] at h
            rw [h]
            rfl
        | some tid =>
            rw [hs] at h
            rw [h]
            rw [h] at hg
            by_cases hid : tid = id
            · subst hid; simp
            · exfalso
              apply hg
              simp [hid]
      · rw [if_neg hg]; exact h

theorem mutate_step_eq {C : Type} (serialize : C → String) (st : DebounceState C)
    (f : C → C) (h1 : st.isRemoteUpdate = false) (h2 : timerInv st) :
    clientStep serialize st (ClEvent.localMutate f) =
      { canvas := f st.canvas, isRemoteUpdate := false, syncTimer := some st.nextId,
        timers := [(st.nextId, debounceDelayMs)], nextId := st.nextId + 1,
        history := st.history ++ [serialize (f st.canvas)], emitted := st.emitted } := by
  have hnr : ¬st.isRemoteUpdate = true := by rw [h1]; exact Bool.false_ne_true
  unfold clientStep emitCanvasSync
  dsimp only
  rw [if_neg hnr, if_neg hnr]
  unfold timerInv at h2
  cases hs : st.syncTimer with
  | none =>
      rw [hs] at h2
      simp [hs, h2, h1]
  | some tid =>
      rw [hs] at h2
      simp [hs, h2, h1]

theorem burst_run {C : Type} (serialize : C → String) (fs : List (C → C)) :
    ∀ st : DebounceState C, st.isRemoteUpdate = false → timerInv st →
      (clientRun serialize st (fs.map ClEvent.localMutate)).emitted = st.emitted
      ∧ (clientRun serialize st (fs.map ClEvent.localMutate)).canvas
          = fs.foldl (fun c f => f c) st.canvas
      ∧ (clientRun serialize st (fs.map ClEvent.localMutate)).isRemoteUpdate = false
      ∧ timerInv (clientRun serialize st (fs.map ClEvent.localMutate))
      ∧ (fs ≠ [] →
          ∃ id, (clientRun serialize st (fs.map ClEvent.localMutate)).syncTimer = some id
            ∧ (clientRun serialize st (fs.map ClEvent.localMutate)).timers
                = [(id, debounceDelayMs)]) := by
  induction fs with
  | nil =>
      intro st h1 h2
      exact ⟨rfl, rfl, h1, h2, fun hne => absurd rfl hne⟩
  | cons f t ih =>
      intro st h1 h2
      have hrun : clientRun serialize st ((f :: t).map ClEvent.localMutate)
          = clientRun serialize (clientStep serialize st (ClEvent.localMutate f))
              (t.map ClEvent.localMutate) := rfl
      rw [hrun, mutate_step_eq serialize st f h1 h2]
      obtain ⟨e1, c1, r1, i1, p1⟩ := ih
        { canvas := f st.canvas, isRemoteUpdate := false, syncTimer := some st.nextId,
          timers := [(st.nextId, debounceDelayMs)], nextId := st.nextId + 1,
          history := st.history ++ [serialize (f st.canvas)], emitted := st.emitted }
        rfl rfl
      refine ⟨e1, c1, r1, i1, fun _ => ?_⟩
      cases t with
      | nil => exact ⟨st.nextId, rfl, rfl⟩
      | cons g t' => exact p1 (by simp)

/-- C7: with no remote update in flight and at most the stored timeout
pending, a burst of `N ≥ 1` local mutations emits nothing while pending,
leaves exactly one scheduled 120 ms timeout (each rescheduling cancelled the
prior one), and when that timeout fires the client emits exactly one
`canvas-sync` whose payload serializes the canvas as of the last mutation;
moreover every client transition preserves the at-most-one-pending-timer
invariant. -/
theorem debounce_coalescing {C : Type} (serialize : C → String)
    (st : DebounceState C) (fs : List (C → C))
    (h1 : st.isRemoteUpdate = false) (h2 : timerInv st) (hne : fs ≠ []) :
    ∃ id,
      (clientRun serialize st (fs.map ClEvent.localMutate)).emitted = st.emitted
      ∧ (clientRun serialize st (fs.map ClEvent.localMutate)).syncTimer = some id
      ∧ (clientRun serialize st (fs.map ClEvent.localMutate)).timers
          = [(id, debounceDelayMs)]
      ∧ (clientStep serialize (clientRun serialize st (fs.map ClEvent.localMutate))
            (ClEvent.timerFire id)).emitted
          = st.emitted ++ [serialize (fs.foldl (fun c f => f c) st.canvas)]
      ∧ (clientStep serialize (clientRun serialize st (fs.map ClEvent.localMutate))
            (ClEvent.timerFire id)).timers = []
      ∧ (clientStep serialize (clientRun serialize st (fs.map ClEvent.localMutate))
            (ClEvent.timerFire id)).syncTimer = none
      ∧ (∀ (st' : DebounceState C) (e : ClEvent C), timerInv st' →
            timerInv (clientStep serialize st' e)) := by
  obtain ⟨e1, c1, r1, i1, p1⟩ := burst_run serialize fs st h1 h2
  obtain ⟨id, hsync, htimers⟩ := p1 hne
  have hguard : ((clientRun serialize st (fs.map ClEvent.localMutate)).timers.filter
      (fun t => t.1 = id)).length ≠ 0 := by
    rw [htimers]
    simp
  refine ⟨id, e1, hsync, htimers, ?_, ?_, ?_,
    fun st' e hi => clientStep_timerInv serialize st' e hi⟩
  · unfold clientStep
    dsimp only
    rw [if_pos hguard]
    dsimp only
    rw [e1, c1]
  · unfold clientStep
    dsimp only
    rw [if_pos hguard]
    dsimp only
    rw [htimers]
    simp
  · unfold clientStep
    dsimp only
    rw [if_pos hguard]

/-- Witness for `debounce_coalescing`: two rapid mutations on an integer
canvas produce one emission carrying the final value. -/
theorem debounce_coalescing_witness :
    (initClient (0 : Int)).isRemoteUpdate = false
    ∧ timerInv (initClient (0 : Int))
    ∧ ([fun n => n + 1, fun n => n + 2] : List (Int → Int)) ≠ []
    ∧ (∃ id,
        (clientRun toString (initClient (0 : Int))
            (([fun n => n + 1, fun n => n + 2] : List (Int → Int)).map
              ClEvent.localMutate)).emitted = (initClient (0 : Int)).emitted
        ∧ (clientRun toString (initClient (0 : Int))
            (([fun n => n + 1, fun n => n + 2] : List (Int → Int)).map
              ClEvent.localMutate)).syncTimer = some id
        ∧ (clientRun toString (initClient (0 : Int))
            (([fun n => n + 1, fun n => n + 2] : List (Int → Int)).map
              ClEvent.localMutate)).timers = [(id, debounceDelayMs)]
        ∧ (clientStep toString (clientRun toString (initClient (0 : Int))
              (([fun n => n + 1, fun n => n + 2] : List (Int → Int)).map
                ClEvent.localMutate)) (ClEvent.timerFire id)).emitted
            = (initClient (0 : Int)).emitted
              ++ [toString (([fun n => n + 1, fun n => n + 2] : List (Int → Int)).foldl
                    (fun c f => f c) (initClient (0 : Int)).canvas)]
        ∧ (clientStep toString (clientRun toString (initClient (0 : Int))
              (([fun n => n + 1, fun n => n + 2] : List (Int → Int)).map
                ClEvent.localMutate)) (ClEvent.timerFire id)).timers = []
        ∧ (clientStep toString (clientRun toString (initClient (0 : Int))
              (([fun n => n + 1, fun n => n + 2] : List (Int → Int)).map
                ClEvent.localMutate)) (ClEvent.timerFire id)).syncTimer = none
        ∧ (∀ (st' : DebounceState Int) (e : ClEvent Int), timerInv st' →
              timerInv (clientStep toString st' e))) :=
  ⟨rfl, rfl, by simp,
   debounce_coalescing toString (initClient (0 : Int))
     ([fun n => n + 1, fun n => n + 2] : List (Int → Int)) rfl rfl (by simp)⟩

/- ### Claim C9: malformed inbound payloads -/

/-- C9 evaluation: the spec's failure semantics require malformed inbound
events to be dropped without crashing the handler or touching room state;
evaluating the embedded `join-room` handler shows the opposite — an absent
payload throws a `TypeError` in parameter destructuring, and a payload
missing `boardId` proceeds and creates a registry room keyed by `undefined`,
mutating the registry. -/
theorem join_room_malformed_payload_eval :
    joinRoomRaw [] "c1" none
      = Except.error "TypeError: cannot destructure properties of undefined"
    ∧ joinRoomRaw [] "c1"
        (some { boardId := none, userId := none, userName := none, color := none })
      = Except.ok [(none,
          { canvasJSON := none,
            users := [("c1", { userId := none, userName := none, color := none })] })] :=
  ⟨rfl, rfl⟩

end CollabBoard
